import Mathlib

/-!
Shallow embedding of the bolay PDF-convenience layer (src/bolay/__init__.py)
into Lean 4, for checking the natural-language specification against the code.

Python floats are modelled as exact rationals (ℚ); Python ints as ℤ.
External collaborators (the fpdf drawing backend, unicodedata, the
arabic-reshaper/bidi pipeline) are modelled as explicit parameters or, where
a claim depends on their documented behaviour, as faithful definitions noted
in the doc comments. Drawing side effects (set_font, text, set_draw_color,
...) have no influence on the values the functions return and are elided;
everything influencing return values is kept.
-/

namespace Bolay

/-- SPoint from the source: a mutable 2D point with coordinates x, y. -/
structure SPoint where
  x : ℚ
  y : ℚ
  deriving DecidableEq, Repr

/-- SPoint.Shift: in-place translation, modelled functionally. -/
def SPoint.Shift (pos : SPoint) (dX dY : ℚ) : SPoint :=
  { x := pos.x + dX, y := pos.y + dY }

/-- SRect from the source: a rectangle owning two corner points. -/
structure SRect where
  posMin : SPoint
  posMax : SPoint
  deriving DecidableEq, Repr

/-- SRect.__init__(x, y, dX, dY): posMin = (x, y), posMax = (x + dX, y + dY). -/
def SRect.ofXYDxDy (x y dX dY : ℚ) : SRect :=
  { posMin := { x := x, y := y }, posMax := { x := x + dX, y := y + dY } }

/-- Property getter SRect.xMin. -/
def SRect.xMin (rect : SRect) : ℚ := rect.posMin.x

/-- Property getter SRect.yMin. -/
def SRect.yMin (rect : SRect) : ℚ := rect.posMin.y

/-- Property getter SRect.xMax. -/
def SRect.xMax (rect : SRect) : ℚ := rect.posMax.x

/-- Property getter SRect.yMax. -/
def SRect.yMax (rect : SRect) : ℚ := rect.posMax.y

/-- Property setter SRect.xMin: sets posMin.x directly. -/
def SRect.setXMin (rect : SRect) (xNew : ℚ) : SRect :=
  { rect with posMin := { rect.posMin with x := xNew } }

/-- Property setter SRect.yMin: sets posMin.y directly. -/
def SRect.setYMin (rect : SRect) (yNew : ℚ) : SRect :=
  { rect with posMin := { rect.posMin with y := yNew } }

/-- Property setter SRect.xMax: sets posMax.x directly. -/
def SRect.setXMax (rect : SRect) (xNew : ℚ) : SRect :=
  { rect with posMax := { rect.posMax with x := xNew } }

/-- Property setter SRect.yMax: sets posMax.y directly. -/
def SRect.setYMax (rect : SRect) (yNew : ℚ) : SRect :=
  { rect with posMax := { rect.posMax with y := yNew } }

/-- Property getter SRect.x: returns posMin.x. -/
def SRect.x (rect : SRect) : ℚ := rect.posMin.x

/-- Property getter SRect.y: returns posMin.y. -/
def SRect.y (rect : SRect) : ℚ := rect.posMin.y

/-- Property getter SRect.dX: posMax.x - posMin.x. -/
def SRect.dX (rect : SRect) : ℚ := rect.posMax.x - rect.posMin.x

/-- Property getter SRect.dY: posMax.y - posMin.y. -/
def SRect.dY (rect : SRect) : ℚ := rect.posMax.y - rect.posMin.y

/-- SRect.Shift(dX, dY): translates both corners. -/
def SRect.Shift (rect : SRect) (dX dY : ℚ) : SRect :=
  { posMin := rect.posMin.Shift dX dY, posMax := rect.posMax.Shift dX dY }

/-- Property setter SRect.x: computes dX = xNew - posMin.x and shifts the whole
rectangle by (dX, 0). -/
def SRect.setX (rect : SRect) (xNew : ℚ) : SRect :=
  rect.Shift (xNew - rect.posMin.x) 0

/-- Property setter SRect.y: computes dY = yNew - posMin.y and shifts the whole
rectangle by (0, dY). -/
def SRect.setY (rect : SRect) (yNew : ℚ) : SRect :=
  rect.Shift 0 (yNew - rect.posMin.y)

/-- Property setter SRect.dX: sets posMax.x = posMin.x + dXNew (posMin fixed). -/
def SRect.setDX (rect : SRect) (dXNew : ℚ) : SRect :=
  { rect with posMax := { rect.posMax with x := rect.posMin.x + dXNew } }

/-- Property setter SRect.dY: sets posMax.y = posMin.y + dYNew (posMin fixed). -/
def SRect.setDY (rect : SRect) (dYNew : ℚ) : SRect :=
  { rect with posMax := { rect.posMax with y := rect.posMin.y + dYNew } }

/-- SRect.Inset(dS): posMin.Shift(dS, dS); posMax.Shift(-dS, -dS). -/
def SRect.Inset (rect : SRect) (dS : ℚ) : SRect :=
  { posMin := rect.posMin.Shift dS dS, posMax := rect.posMax.Shift (-dS) (-dS) }

/-- SRect.Outset(dS): calls Inset(-dS). -/
def SRect.Outset (rect : SRect) (dS : ℚ) : SRect :=
  rect.Inset (-dS)

/-- SRect.Stretch: moves each edge independently. -/
def SRect.Stretch (rect : SRect) (dXLeft dYTop dXRight dYBottom : ℚ) : SRect :=
  { posMin := rect.posMin.Shift dXLeft dYTop,
    posMax := rect.posMax.Shift dXRight dYBottom }

/-- SRect.Copy() with no arguments: a deepcopy followed by Set with all
arguments None (a no-op); in a functional embedding this is the identity. -/
def SRect.Copy (rect : SRect) : SRect := rect

/-- SColor from the source: four integer channels, alpha defaulting to 255. -/
structure SColor where
  r : ℤ
  g : ℤ
  b : ℤ
  a : ℤ
  deriving DecidableEq, Repr

/-- Python float modulo by 1.0 (x % 1.0): the fractional part x - floor x. -/
def qmod1 (x : ℚ) : ℚ := x - ⌊x⌋

/-- Python int() on a float: truncation toward zero. -/
def pytrunc (x : ℚ) : ℤ := if 0 ≤ x then ⌊x⌋ else ⌈x⌉

/-- Python round() on a float: round half to even. -/
def pyround (x : ℚ) : ℤ :=
  if x - ⌊x⌋ < 1 / 2 then ⌊x⌋
  else if 1 / 2 < x - ⌊x⌋ then ⌊x⌋ + 1
  else if ⌊x⌋ % 2 = 0 then ⌊x⌋ else ⌊x⌋ + 1

/-- colorsys.rgb_to_hsv from the Python standard library (an external
collaborator of ColorResaturate), in exact rational arithmetic. -/
def rgb_to_hsv (r g b : ℚ) : ℚ × ℚ × ℚ :=
  let maxc := max r (max g b)
  let minc := min r (min g b)
  let rangec := maxc - minc
  let v := maxc
  if minc = maxc then (0, 0, v)
  else
    let s := rangec / maxc
    let rc := (maxc - r) / rangec
    let gc := (maxc - g) / rangec
    let bc := (maxc - b) / rangec
    let h :=
      if r = maxc then bc - gc
      else if g = maxc then 2 + rc - bc
      else 4 + gc - rc
    (qmod1 (h / 6), s, v)

/-- colorsys.hsv_to_rgb from the Python standard library (an external
collaborator of ColorResaturate), in exact rational arithmetic. -/
def hsv_to_rgb (h s v : ℚ) : ℚ × ℚ × ℚ :=
  if s = 0 then (v, v, v)
  else
    let i0 := pytrunc (h * 6)
    let f := h * 6 - i0
    let p := v * (1 - s)
    let q := v * (1 - s * f)
    let t := v * (1 - s * (1 - f))
    let i := i0 % 6
    if i = 0 then (v, t, p)
    else if i = 1 then (q, v, p)
    else if i = 2 then (p, v, t)
    else if i = 3 then (p, q, v)
    else if i = 4 then (t, p, v)
    else (v, p, q)

/-- ColorResaturate from the source: RGB to HSV, affine transform on s and v
clamped to [0, 1], back to RGB, channels rounded, alpha preserved. -/
def ColorResaturate (color : SColor) (rS dS rV dV : ℚ) : SColor :=
  let hsv := rgb_to_hsv ((color.r : ℚ) / 255) ((color.g : ℚ) / 255) ((color.b : ℚ) / 255)
  let s := min 1 (max 0 (hsv.2.1 * rS + dS))
  let v := min 1 (max 0 (hsv.2.2 * rV + dV))
  let rgb := hsv_to_rgb hsv.1 s v
  { r := pyround (rgb.1 * 255), g := pyround (rgb.2.1 * 255),
    b := pyround (rgb.2.2 * 255), a := color.a }

/-- FIsSaturated from the source: HSV saturation strictly positive. -/
def FIsSaturated (color : SColor) : Bool :=
  decide (0 < (rgb_to_hsv ((color.r : ℚ) / 255) ((color.g : ℚ) / 255) ((color.b : ℚ) / 255)).2.1)

/-- One iteration of the RectBoundingBox loop body: the four setter
assignments, applied in source order. -/
def bbStep (rectReturn rectNext : SRect) : SRect :=
  let a1 := rectReturn.setXMin (min rectReturn.xMin rectNext.xMin)
  let a2 := a1.setYMin (min a1.yMin rectNext.yMin)
  let a3 := a2.setXMax (max a2.xMax rectNext.xMax)
  a3.setYMax (max a3.yMax rectNext.yMax)

/-- RectBoundingBox from the source, with the iterable modelled as a list:
empty input yields SRect() (a zero rectangle at the origin); otherwise a copy
of the first rectangle folded with the loop body over the rest. -/
def RectBoundingBox (iRect : List SRect) : SRect :=
  match iRect with
  | [] => SRect.ofXYDxDy 0 0 0 0
  | rectFirst :: rest => rest.foldl bbStep rectFirst.Copy

lemma bbStep_posMin_x (a r : SRect) : (bbStep a r).posMin.x = min a.posMin.x r.posMin.x := rfl

lemma bbStep_posMin_y (a r : SRect) : (bbStep a r).posMin.y = min a.posMin.y r.posMin.y := rfl

lemma bbStep_posMax_x (a r : SRect) : (bbStep a r).posMax.x = max a.posMax.x r.posMax.x := rfl

lemma bbStep_posMax_y (a r : SRect) : (bbStep a r).posMax.y = max a.posMax.y r.posMax.y := rfl

lemma bbFold_posMin_x : ∀ (rs : List SRect) (acc : SRect),
    (rs.foldl bbStep acc).posMin.x = (rs.map SRect.xMin).foldl min acc.posMin.x
  | [], _ => rfl
  | r :: rs, acc => by
      simp only [List.foldl_cons, List.map_cons, bbFold_posMin_x rs, bbStep_posMin_x]
      rfl

lemma bbFold_posMin_y : ∀ (rs : List SRect) (acc : SRect),
    (rs.foldl bbStep acc).posMin.y = (rs.map SRect.yMin).foldl min acc.posMin.y
  | [], _ => rfl
  | r :: rs, acc => by
      simp only [List.foldl_cons, List.map_cons, bbFold_posMin_y rs, bbStep_posMin_y]
      rfl

lemma bbFold_posMax_x : ∀ (rs : List SRect) (acc : SRect),
    (rs.foldl bbStep acc).posMax.x = (rs.map SRect.xMax).foldl max acc.posMax.x
  | [], _ => rfl
  | r :: rs, acc => by
      simp only [List.foldl_cons, List.map_cons, bbFold_posMax_x rs, bbStep_posMax_x]
      rfl

lemma bbFold_posMax_y : ∀ (rs : List SRect) (acc : SRect),
    (rs.foldl bbStep acc).posMax.y = (rs.map SRect.yMax).foldl max acc.posMax.y
  | [], _ => rfl
  | r :: rs, acc => by
      simp only [List.foldl_cons, List.map_cons, bbFold_posMax_y rs, bbStep_posMax_y]
      rfl

/-- CPdf.s_mpStrFormatWH from the source: page-format name to (width, height)
in points (1/72 inch), modelled as an association list. -/
def s_mpStrFormatWH : List (String × ℚ × ℚ) := [
  ("letter", 612.00, 792.00),
  ("legal", 612.00, 1008.00),
  ("ledger", 792.00, 1224.00),
  ("tabloid", 792.00, 1224.00),
  ("executive", 522.00, 756.00),
  ("ansi-a", 612.00, 792.00),
  ("ansi-b", 792.00, 1224.00),
  ("ansi-c", 1224.00, 1584.00),
  ("ansi-d", 1584.00, 2448.00),
  ("ansi-e", 2448.00, 3168.00),
  ("arch-a", 648.00, 864.00),
  ("arch-b", 864.00, 1296.00),
  ("arch-c", 1296.00, 1728.00),
  ("arch-d", 1728.00, 2592.00),
  ("arch-e", 2592.00, 3456.00),
  ("arch-e1", 2160.00, 3024.00),
  ("arch-e2", 1872.00, 2736.00),
  ("arch-e3", 1944.00, 2808.00),
  ("a0", 2383.94, 3370.39),
  ("a1", 1683.78, 2383.94),
  ("a2", 1190.55, 1683.78),
  ("a3", 841.89, 1190.55),
  ("a4", 595.28, 841.89),
  ("a5", 419.53, 595.28),
  ("a6", 297.64, 419.53),
  ("a7", 209.76, 297.64),
  ("a8", 147.40, 209.76),
  ("a9", 104.88, 147.40),
  ("a10", 73.70, 104.88),
  ("b0", 2834.65, 4008.19),
  ("b1", 2004.09, 2834.65),
  ("b2", 1417.32, 2004.09),
  ("b3", 1000.63, 1417.32),
  ("b4", 708.66, 1000.63),
  ("b5", 498.90, 708.66),
  ("b6", 354.33, 498.90),
  ("b7", 249.45, 354.33),
  ("b8", 175.75, 249.45),
  ("b9", 124.72, 175.75),
  ("b10", 87.87, 124.72),
  ("c0", 2599.37, 3676.54),
  ("c1", 1836.85, 2599.37),
  ("c2", 1298.27, 1836.85),
  ("c3", 918.43, 1298.27),
  ("c4", 649.13, 918.43),
  ("c5", 459.21, 649.13),
  ("c6", 323.15, 459.21),
  ("c7", 229.61, 323.15),
  ("c8", 161.57, 229.61),
  ("c9", 113.39, 161.57),
  ("c10", 79.37, 113.39),
  ("ra0", 2437.80, 3458.27),
  ("ra1", 1729.13, 2437.80),
  ("ra2", 1218.90, 1729.13),
  ("ra3", 864.57, 1218.90),
  ("ra4", 609.45, 864.57),
  ("sra0", 2551.18, 3628.35),
  ("sra1", 1814.17, 2551.18),
  ("sra2", 1275.59, 1814.17),
  ("sra3", 907.09, 1275.59),
  ("sra4", 637.80, 907.09),
  ("8R", 576.00, 720.00),
  ("11R", 792.00, 1224.00),
  ("16R", 1152.00, 1440.00),
  ("8x10", 576.00, 720.00),
  ("11x14", 792.00, 1224.00),
  ("12x18", 864.00, 1296.00),
  ("16x20", 1152.00, 1440.00),
  ("18x24", 1296.00, 1728.00),
  ("22x28", 1584.00, 2016.00),
  ("24x36", 1728.00, 2592.00),
  ("36x48", 2592.00, 3456.00),
  ("40x60", 2880.00, 4320.00)]

/-- Python str.lower(), modelled as per-character lowercasing (the source
only ever compares the result against ASCII names, for which this agrees
with Python). -/
def pylower (s : String) : String := String.mk (s.data.map Char.toLower)

/-- A page-format argument: a format name, or an explicit (width, height) pair
in the document's working unit. -/
inductive PageFmt where
  | str (s : String)
  | wh (dX dY : ℚ)

/-- First-match lookup in an association list (a Python dict lookup; the
keys of s_mpStrFormatWH are unique, so first match is the dict entry). -/
def lookupFmt : List (String × ℚ × ℚ) → String → Option (ℚ × ℚ)
  | [], _ => none
  | (key, dX, dY) :: rest, s => if key = s then some (dX, dY) else lookupFmt rest s

/-- fpdf.fpdf.get_page_format, the external collaborator called by
TuDxDyFromOrientationFmt, after CPdf.__init__ has updated fpdf's PAGE_FORMATS
with s_mpStrFormatWH (whose keys cover all of fpdf's builtin names): a string
is lowercased and looked up in the table, an unknown name raising an
FPDFException (modelled as none); an explicit pair is scaled by k into
points. -/
def get_page_format (fmt : PageFmt) (k : ℚ) : Option (ℚ × ℚ) :=
  match fmt with
  | PageFmt.str s => lookupFmt s_mpStrFormatWH (pylower s)
  | PageFmt.wh dX dY => some (dX * k, dY * k)

/-- Outcome of CPdf.TuDxDyFromOrientationFmt: the early None return for a
missing format, a normal (dX, dY) result, the FPDFException raised by
get_page_format on an unknown format name, or the AssertionError raised on an
unrecognized orientation string. -/
inductive TuResult where
  | noneFmt
  | ok (dX dY : ℚ)
  | fmtError
  | assertError
  deriving DecidableEq, Repr

/-- CPdf.TuDxDyFromOrientationFmt from the source. k is the fpdf unit scale
(72 for a document whose working unit is inches). -/
def TuDxDyFromOrientationFmt (k : ℚ) (strOrientation : String)
    (fmt : Option PageFmt) : TuResult :=
  match fmt with
  | none => TuResult.noneFmt
  | some f =>
    match get_page_format f k with
    | none => TuResult.fmtError
    | some (dXPt, dYPt) =>
      let strOrientationLower := pylower strOrientation
      if strOrientationLower = "p" ∨ strOrientationLower = "portrait" then
        TuResult.ok (dXPt / k) (dYPt / k)
      else if strOrientationLower = "l" ∨ strOrientationLower = "landscape" then
        TuResult.ok (dYPt / k) (dXPt / k)
      else TuResult.assertError

/-- SFontKey from the source: (family, style); its Str() identity is only
used to index the external font table and plays no role in the claims. -/
structure SFontKey where
  strFont : String
  strStyle : String
  deriving DecidableEq, Repr

/-- CFontInstance.__init__ from the source. dYCapRaw models the CapHeight
read from the registered font's descriptor (pdf.fonts[fontkey.Str()], an
external lookup) in font design units. The instance stores the requested
size dYFont (inches), the point size dPtFont = dYFont * 72, and the effective
cap-height dYCap = dYCapRaw * dYFont / 1000. -/
structure CFontInstance where
  dYFont : ℚ
  dPtFont : ℚ
  dYCap : ℚ
  deriving DecidableEq, Repr

/-- Constructor for CFontInstance (see CFontInstance). -/
def CFontInstance.init (dYCapRaw dYFont : ℚ) : CFontInstance :=
  { dYFont := dYFont, dPtFont := dYFont * 72, dYCap := dYCapRaw * dYFont / 1000 }

/-- FHasAnyRtl from the source, parameterized by unicodedata.bidirectional
(the external character classification): true iff some character of the
string has bidirectional category AL or R. -/
def FHasAnyRtl (bidi : Char → String) (strText : String) : Bool :=
  strText.data.any fun ch => bidi ch = "AL" || bidi ch = "R"

/-- Horizontal justification enum JH. -/
inductive JH where
  | Left
  | Center
  | Right
  deriving DecidableEq, Repr

/-- Vertical justification enum JV. -/
inductive JV where
  | Bottom
  | Middle
  | Top
  deriving DecidableEq, Repr

/-- COneLineTextBox from the source; dYCapRaw is carried so that the
shrink-to-fit path can rebuild a CFontInstance for the same font key. -/
structure COneLineTextBox where
  dYCapRaw : ℚ
  fonti : CFontInstance
  rect : SRect
  dYCap : ℚ
  dSMargin : ℚ
  rectMargin : SRect
  deriving DecidableEq, Repr

/-- COneLineTextBox.__init__ from the source: dSMargin is
`dSMargin or max(0.0, (rect.dY - dYCap) / 2.0)` -- Python's falsy `or`
treats both None and 0.0 as absent; rectMargin = rect.Copy().Inset(margin). -/
def COneLineTextBox.init (dYCapRaw : ℚ) (rect : SRect) (dYFont : ℚ)
    (dSMargin : Option ℚ) : COneLineTextBox :=
  let fonti := CFontInstance.init dYCapRaw dYFont
  let dYCap := fonti.dYCap
  let dSMarginUsed :=
    match dSMargin with
    | some m => if m = 0 then max 0 ((rect.dY - dYCap) / 2) else m
    | none => max 0 ((rect.dY - dYCap) / 2)
  { dYCapRaw := dYCapRaw, fonti := fonti, rect := rect, dYCap := dYCap,
    dSMargin := dSMarginUsed, rectMargin := (rect.Copy).Inset dSMarginUsed }

/-- Result of COneLineTextBox.RectDrawText: the string actually passed to the
drawing calls, the font instance and cap-height after any shrink, and the
returned occupied rectangle. -/
structure SDrawnText where
  strDrawn : String
  fonti : CFontInstance
  dYCap : ℚ
  rectReturn : SRect
  deriving DecidableEq, Repr

/-- COneLineTextBox.RectDrawText from the source, parameterized by the
external collaborators: bidi is unicodedata.bidirectional; rtlXform is the
composition arabic_reshaper.reshape then bidi.algorithm.get_display then the
strip of Cf (format) characters; wPerPt strTextDrawn is the width returned by
pdf.get_string_width per point of font size (fpdf's measurement is linear in
the font size set by set_font). The halo and the text drawing calls are side
effects with no influence on the returned rectangle and are elided. -/
def COneLineTextBox.RectDrawText (oltb : COneLineTextBox) (bidi : Char → String)
    (rtlXform : String → String) (wPerPt : String → ℚ) (strText : String)
    (jh : JH) (jv : JV) (fShrinkToFit : Bool) : SDrawnText :=
  let strText1 := if FHasAnyRtl bidi strText then rtlXform strText else strText
  let dXText0 := wPerPt strText1 * oltb.fonti.dPtFont
  let fonti1 :=
    if fShrinkToFit = true ∧ oltb.rectMargin.dX < dXText0 then
      CFontInstance.init oltb.dYCapRaw ((oltb.rectMargin.dX / dXText0) * oltb.fonti.dYFont)
    else oltb.fonti
  let dYCap1 :=
    if fShrinkToFit = true ∧ oltb.rectMargin.dX < dXText0 then fonti1.dYCap else oltb.dYCap
  let dXText :=
    if fShrinkToFit = true ∧ oltb.rectMargin.dX < dXText0 then wPerPt strText1 * fonti1.dPtFont
    else dXText0
  let rectText0 := SRect.ofXYDxDy 0 0 dXText dYCap1
  let rectText1 :=
    match jh with
    | JH.Left => rectText0.setX oltb.rectMargin.x
    | JH.Center => rectText0.setX (oltb.rectMargin.x + (oltb.rectMargin.dX - rectText0.dX) / 2)
    | JH.Right => rectText0.setX (oltb.rectMargin.x + oltb.rectMargin.dX - rectText0.dX)
  let rectText2 :=
    match jv with
    | JV.Bottom => rectText1.setY (oltb.rectMargin.y + oltb.rectMargin.dY)
    | JV.Middle => rectText1.setY (oltb.rectMargin.y + (oltb.rectMargin.dY + rectText1.dY) / 2)
    | JV.Top => rectText1.setY (oltb.rectMargin.y + rectText1.dY)
  { strDrawn := strText1, fonti := fonti1, dYCap := dYCap1,
    rectReturn := (rectText2.Copy).Shift 0 (-rectText2.dY) }

lemma qmod1_of_nonneg_lt {x : ℚ} (h0 : 0 ≤ x) (h1 : x < 1) : qmod1 x = x := by
  unfold qmod1
  rw [Int.floor_eq_zero_iff.mpr ⟨h0, h1⟩]
  push_cast
  ring

lemma qmod1_of_neg {x : ℚ} (h0 : -1 ≤ x) (h1 : x < 0) : qmod1 x = x + 1 := by
  unfold qmod1
  have hf : ⌊x⌋ = -1 := Int.floor_eq_iff.mpr ⟨by push_cast; linarith, by push_cast; linarith⟩
  rw [hf]
  push_cast
  ring

lemma pytrunc_eq {x : ℚ} {n : ℤ} (hx : 0 ≤ x) (h0 : (n : ℚ) ≤ x) (h1 : x < n + 1) :
    pytrunc x = n := by
  unfold pytrunc
  rw [if_pos hx]
  exact Int.floor_eq_iff.mpr ⟨h0, by linarith⟩

lemma hsv_to_rgb_case0 (h s v : ℚ) (hs : s ≠ 0) (h0 : 0 ≤ h * 6) (h1 : h * 6 < 1) :
    hsv_to_rgb h s v = (v, v * (1 - s * (1 - h * 6)), v * (1 - s)) := by
  have ht : pytrunc (h * 6) = 0 := pytrunc_eq h0 (by exact_mod_cast h0) (by exact_mod_cast h1)
  simp only [hsv_to_rgb, if_neg hs, ht]
  norm_num

lemma hsv_to_rgb_case1 (h s v : ℚ) (hs : s ≠ 0) (h0 : 1 ≤ h * 6) (h1 : h * 6 < 2) :
    hsv_to_rgb h s v = (v * (1 - s * (h * 6 - 1)), v, v * (1 - s)) := by
  have ht : pytrunc (h * 6) = 1 :=
    pytrunc_eq (by linarith) (by push_cast; linarith) (by push_cast; linarith)
  simp only [hsv_to_rgb, if_neg hs, ht]
  norm_num

lemma hsv_to_rgb_case2 (h s v : ℚ) (hs : s ≠ 0) (h0 : 2 ≤ h * 6) (h1 : h * 6 < 3) :
    hsv_to_rgb h s v = (v * (1 - s), v, v * (1 - s * (1 - (h * 6 - 2)))) := by
  have ht : pytrunc (h * 6) = 2 :=
    pytrunc_eq (by linarith) (by push_cast; linarith) (by push_cast; linarith)
  simp only [hsv_to_rgb, if_neg hs, ht]
  norm_num

lemma hsv_to_rgb_case3 (h s v : ℚ) (hs : s ≠ 0) (h0 : 3 ≤ h * 6) (h1 : h * 6 < 4) :
    hsv_to_rgb h s v = (v * (1 - s), v * (1 - s * (h * 6 - 3)), v) := by
  have ht : pytrunc (h * 6) = 3 :=
    pytrunc_eq (by linarith) (by push_cast; linarith) (by push_cast; linarith)
  simp only [hsv_to_rgb, if_neg hs, ht]
  norm_num

lemma hsv_to_rgb_case4 (h s v : ℚ) (hs : s ≠ 0) (h0 : 4 ≤ h * 6) (h1 : h * 6 < 5) :
    hsv_to_rgb h s v = (v * (1 - s * (1 - (h * 6 - 4))), v * (1 - s), v) := by
  have ht : pytrunc (h * 6) = 4 :=
    pytrunc_eq (by linarith) (by push_cast; linarith) (by push_cast; linarith)
  simp only [hsv_to_rgb, if_neg hs, ht]
  norm_num

lemma hsv_to_rgb_case5 (h s v : ℚ) (hs : s ≠ 0) (h0 : 5 ≤ h * 6) (h1 : h * 6 < 6) :
    hsv_to_rgb h s v = (v, v * (1 - s), v * (1 - s * (h * 6 - 5))) := by
  have ht : pytrunc (h * 6) = 5 :=
    pytrunc_eq (by linarith) (by push_cast; linarith) (by push_cast; linarith)
  simp only [hsv_to_rgb, if_neg hs, ht]
  norm_num

lemma roundtrip_rmax_bmin (r g b : ℚ) (hb0 : 0 ≤ b) (hbg : b ≤ g) (hgr : g ≤ r)
    (hbr : b < r) :
    hsv_to_rgb (qmod1 (((r - b) / (r - b) - (r - g) / (r - b)) / 6)) ((r - b) / r) r
      = (r, g, b) := by
  have hr0 : 0 < r := lt_of_le_of_lt hb0 hbr
  have hD : (0 : ℚ) < r - b := by linarith
  have hDne : r - b ≠ 0 := ne_of_gt hD
  have hrne : r ≠ 0 := ne_of_gt hr0
  have hs : (r - b) / r ≠ 0 := ne_of_gt (div_pos hD hr0)
  have harg : ((r - b) / (r - b) - (r - g) / (r - b)) / 6 = (g - b) / (r - b) / 6 := by
    rw [div_sub_div_same]
    congr 2
    ring
  rw [harg]
  have hx6 : (g - b) / (r - b) / 6 * 6 = (g - b) / (r - b) := by ring
  have hrat0 : 0 ≤ (g - b) / (r - b) := div_nonneg (by linarith) (le_of_lt hD)
  by_cases hgr2 : g < r
  · have hrat1 : (g - b) / (r - b) < 1 := by
      rw [div_lt_one hD]; linarith
    have hq : qmod1 ((g - b) / (r - b) / 6) = (g - b) / (r - b) / 6 :=
      qmod1_of_nonneg_lt (by positivity) (by rw [div_lt_one (by norm_num : (0:ℚ) < 6)]; linarith)
    rw [hq, hsv_to_rgb_case0 _ _ _ hs (by rw [hx6]; exact hrat0) (by rw [hx6]; exact hrat1)]
    rw [hx6]
    simp only [Prod.mk.injEq]
    refine ⟨trivial, ?_, ?_⟩
    · field_simp
      ring
    · field_simp
  · have hge : g = r := le_antisymm hgr (not_lt.mp hgr2)
    have hval : (g - b) / (r - b) = 1 := by rw [hge]; exact div_self hDne
    rw [hval]
    have hq : qmod1 ((1 : ℚ) / 6) = 1 / 6 := qmod1_of_nonneg_lt (by norm_num) (by norm_num)
    rw [hq, hsv_to_rgb_case1 _ _ _ hs (by norm_num) (by norm_num)]
    simp only [Prod.mk.injEq]
    refine ⟨?_, ?_, ?_⟩
    · norm_num
    · rw [hge]
    · field_simp

lemma roundtrip_rmax_gmin (r g b : ℚ) (hg0 : 0 ≤ g) (hgb : g < b) (hbr : b ≤ r) :
    hsv_to_rgb (qmod1 (((r - b) / (r - g) - (r - g) / (r - g)) / 6)) ((r - g) / r) r
      = (r, g, b) := by
  have hgr : g < r := lt_of_lt_of_le hgb hbr
  have hr0 : 0 < r := lt_of_le_of_lt hg0 hgr
  have hD : (0 : ℚ) < r - g := by linarith
  have hDne : r - g ≠ 0 := ne_of_gt hD
  have hrne : r ≠ 0 := ne_of_gt hr0
  have hs : (r - g) / r ≠ 0 := ne_of_gt (div_pos hD hr0)
  have harg : ((r - b) / (r - g) - (r - g) / (r - g)) / 6 = (g - b) / (r - g) / 6 := by
    rw [div_sub_div_same]
    congr 2
    ring
  rw [harg]
  have hratlt : (g - b) / (r - g) < 0 := div_neg_of_neg_of_pos (by linarith) hD
  have hratge : -1 ≤ (g - b) / (r - g) := by
    rw [le_div_iff₀ hD]
    linarith
  have hq : qmod1 ((g - b) / (r - g) / 6) = (g - b) / (r - g) / 6 + 1 :=
    qmod1_of_neg (by linarith) (by linarith)
  have hx6 : ((g - b) / (r - g) / 6 + 1) * 6 = (g - b) / (r - g) + 6 := by ring
  rw [hq, hsv_to_rgb_case5 _ _ _ hs (by rw [hx6]; linarith) (by rw [hx6]; linarith)]
  rw [hx6]
  simp only [Prod.mk.injEq]
  refine ⟨trivial, ?_, ?_⟩
  · field_simp
  · field_simp
    ring

lemma roundtrip_gmax_bmin (r g b : ℚ) (hb0 : 0 ≤ b) (hbr : b < r) (hrg : r < g) :
    hsv_to_rgb (qmod1 ((2 + (g - r) / (g - b) - (g - b) / (g - b)) / 6)) ((g - b) / g) g
      = (r, g, b) := by
  have hg0 : 0 < g := by linarith
  have hD : (0 : ℚ) < g - b := by linarith
  have hDne : g - b ≠ 0 := ne_of_gt hD
  have hgne : g ≠ 0 := ne_of_gt hg0
  have hs : (g - b) / g ≠ 0 := ne_of_gt (div_pos hD hg0)
  have harg : (2 + (g - r) / (g - b) - (g - b) / (g - b)) / 6 = (2 + (b - r) / (g - b)) / 6 := by
    field_simp
    ring
  rw [harg]
  have hratlt : (b - r) / (g - b) < 0 := div_neg_of_neg_of_pos (by linarith) hD
  have hratgt : -1 < (b - r) / (g - b) := by
    rw [lt_div_iff₀ hD]
    linarith
  have hq : qmod1 ((2 + (b - r) / (g - b)) / 6) = (2 + (b - r) / (g - b)) / 6 :=
    qmod1_of_nonneg_lt (by linarith) (by rw [div_lt_one (by norm_num : (0:ℚ) < 6)]; linarith)
  have hx6 : (2 + (b - r) / (g - b)) / 6 * 6 = 2 + (b - r) / (g - b) := by ring
  rw [hq, hsv_to_rgb_case1 _ _ _ hs (by rw [hx6]; linarith) (by rw [hx6]; linarith)]
  rw [hx6]
  simp only [Prod.mk.injEq]
  refine ⟨?_, trivial, ?_⟩
  · field_simp
    ring
  · field_simp

lemma roundtrip_gmax_rmin (r g b : ℚ) (hr0 : 0 ≤ r) (hrb : r ≤ b) (hbg : b ≤ g)
    (hrg : r < g) :
    hsv_to_rgb (qmod1 ((2 + (g - r) / (g - r) - (g - b) / (g - r)) / 6)) ((g - r) / g) g
      = (r, g, b) := by
  have hg0 : 0 < g := lt_of_le_of_lt hr0 hrg
  have hD : (0 : ℚ) < g - r := by linarith
  have hDne : g - r ≠ 0 := ne_of_gt hD
  have hgne : g ≠ 0 := ne_of_gt hg0
  have hs : (g - r) / g ≠ 0 := ne_of_gt (div_pos hD hg0)
  have harg : (2 + (g - r) / (g - r) - (g - b) / (g - r)) / 6 = (2 + (b - r) / (g - r)) / 6 := by
    field_simp
    ring
  rw [harg]
  have hrat0 : 0 ≤ (b - r) / (g - r) := div_nonneg (by linarith) (le_of_lt hD)
  have hrat1 : (b - r) / (g - r) ≤ 1 := by
    rw [div_le_one hD]
    linarith
  by_cases hbg2 : b < g
  · have hratlt : (b - r) / (g - r) < 1 := by
      rw [div_lt_one hD]
      linarith
    have hq : qmod1 ((2 + (b - r) / (g - r)) / 6) = (2 + (b - r) / (g - r)) / 6 :=
      qmod1_of_nonneg_lt (by linarith) (by rw [div_lt_one (by norm_num : (0:ℚ) < 6)]; linarith)
    have hx6 : (2 + (b - r) / (g - r)) / 6 * 6 = 2 + (b - r) / (g - r) := by ring
    rw [hq, hsv_to_rgb_case2 _ _ _ hs (by rw [hx6]; linarith) (by rw [hx6]; linarith)]
    rw [hx6]
    simp only [Prod.mk.injEq]
    refine ⟨?_, trivial, ?_⟩
    · field_simp
    · field_simp
      ring
  · have hbe : b = g := le_antisymm hbg (not_lt.mp hbg2)
    have hval : (b - r) / (g - r) = 1 := by rw [hbe]; exact div_self hDne
    rw [hval]
    have hq : qmod1 ((2 + (1 : ℚ)) / 6) = (2 + 1) / 6 := qmod1_of_nonneg_lt (by norm_num) (by norm_num)
    rw [hq, hsv_to_rgb_case3 _ _ _ hs (by norm_num) (by norm_num)]
    simp only [Prod.mk.injEq]
    refine ⟨?_, ?_, ?_⟩
    · field_simp
    · norm_num
    · rw [hbe]

lemma roundtrip_bmax_rmin (r g b : ℚ) (hr0 : 0 ≤ r) (hrg : r < g) (hgb : g < b) :
    hsv_to_rgb (qmod1 ((4 + (b - g) / (b - r) - (b - r) / (b - r)) / 6)) ((b - r) / b) b
      = (r, g, b) := by
  have hb0 : 0 < b := by linarith
  have hD : (0 : ℚ) < b - r := by linarith
  have hDne : b - r ≠ 0 := ne_of_gt hD
  have hbne : b ≠ 0 := ne_of_gt hb0
  have hs : (b - r) / b ≠ 0 := ne_of_gt (div_pos hD hb0)
  have harg : (4 + (b - g) / (b - r) - (b - r) / (b - r)) / 6 = (4 + (r - g) / (b - r)) / 6 := by
    field_simp
    ring
  rw [harg]
  have hratlt : (r - g) / (b - r) < 0 := div_neg_of_neg_of_pos (by linarith) hD
  have hratgt : -1 < (r - g) / (b - r) := by
    rw [lt_div_iff₀ hD]
    linarith
  have hq : qmod1 ((4 + (r - g) / (b - r)) / 6) = (4 + (r - g) / (b - r)) / 6 :=
    qmod1_of_nonneg_lt (by linarith) (by rw [div_lt_one (by norm_num : (0:ℚ) < 6)]; linarith)
  have hx6 : (4 + (r - g) / (b - r)) / 6 * 6 = 4 + (r - g) / (b - r) := by ring
  rw [hq, hsv_to_rgb_case3 _ _ _ hs (by rw [hx6]; linarith) (by rw [hx6]; linarith)]
  rw [hx6]
  simp only [Prod.mk.injEq]
  refine ⟨?_, ?_, trivial⟩
  · field_simp
  · field_simp
    ring

lemma roundtrip_bmax_gmin (r g b : ℚ) (hg0 : 0 ≤ g) (hgr : g ≤ r) (hrb : r < b) :
    hsv_to_rgb (qmod1 ((4 + (b - g) / (b - g) - (b - r) / (b - g)) / 6)) ((b - g) / b) b
      = (r, g, b) := by
  have hgb : g < b := lt_of_le_of_lt hgr hrb
  have hb0 : 0 < b := lt_of_le_of_lt hg0 hgb
  have hD : (0 : ℚ) < b - g := by linarith
  have hDne : b - g ≠ 0 := ne_of_gt hD
  have hbne : b ≠ 0 := ne_of_gt hb0
  have hs : (b - g) / b ≠ 0 := ne_of_gt (div_pos hD hb0)
  have harg : (4 + (b - g) / (b - g) - (b - r) / (b - g)) / 6 = (4 + (r - g) / (b - g)) / 6 := by
    field_simp
    ring
  rw [harg]
  have hrat0 : 0 ≤ (r - g) / (b - g) := div_nonneg (by linarith) (le_of_lt hD)
  have hratlt : (r - g) / (b - g) < 1 := by
    rw [div_lt_one hD]
    linarith
  have hq : qmod1 ((4 + (r - g) / (b - g)) / 6) = (4 + (r - g) / (b - g)) / 6 :=
    qmod1_of_nonneg_lt (by linarith) (by rw [div_lt_one (by norm_num : (0:ℚ) < 6)]; linarith)
  have hx6 : (4 + (r - g) / (b - g)) / 6 * 6 = 4 + (r - g) / (b - g) := by ring
  rw [hq, hsv_to_rgb_case4 _ _ _ hs (by rw [hx6]; linarith) (by rw [hx6]; linarith)]
  rw [hx6]
  simp only [Prod.mk.injEq]
  refine ⟨?_, ?_, trivial⟩
  · field_simp
    ring
  · field_simp

lemma hsv_of_rgb_roundtrip (r g b : ℚ) (hr0 : 0 ≤ r) (hg0 : 0 ≤ g) (hb0 : 0 ≤ b) :
    hsv_to_rgb (rgb_to_hsv r g b).1 (rgb_to_hsv r g b).2.1 (rgb_to_hsv r g b).2.2
      = (r, g, b) := by
  have hgmax : g ≤ max r (max g b) := le_trans (le_max_left g b) (le_max_right r (max g b))
  have hbmax : b ≤ max r (max g b) := le_trans (le_max_right g b) (le_max_right r (max g b))
  have hminr : min r (min g b) ≤ r := min_le_left _ _
  have hming : min r (min g b) ≤ g := le_trans (min_le_right _ _) (min_le_left _ _)
  have hminb : min r (min g b) ≤ b := le_trans (min_le_right _ _) (min_le_right _ _)
  by_cases hEq : min r (min g b) = max r (max g b)
  · have hrM : r = max r (max g b) := le_antisymm (le_max_left _ _) (hEq ▸ hminr)
    have hgM : g = max r (max g b) := le_antisymm hgmax (hEq ▸ hming)
    have hbM : b = max r (max g b) := le_antisymm hbmax (hEq ▸ hminb)
    simp only [rgb_to_hsv, if_pos hEq, hsv_to_rgb, if_pos rfl]
    rw [Prod.mk.injEq, Prod.mk.injEq]
    exact ⟨hrM.symm, hgM.symm, hbM.symm⟩
  · have hlt : min r (min g b) < max r (max g b) :=
      lt_of_le_of_ne (le_trans (min_le_left _ _) (le_max_left _ _)) hEq
    simp only [rgb_to_hsv, if_neg hEq]
    by_cases hr : r = max r (max g b)
    · rw [if_pos hr]
      have hgr : g ≤ r := le_of_le_of_eq hgmax hr.symm
      have hbrle : b ≤ r := le_of_le_of_eq hbmax hr.symm
      by_cases hbg : b ≤ g
      · have hmin : min r (min g b) = b := by
          rw [min_eq_right hbg, min_eq_right hbrle]
        have hmax : max r (max g b) = r := hr.symm
        rw [hmin, hmax] at hlt
        rw [hmax, hmin]
        exact roundtrip_rmax_bmin r g b hb0 hbg hgr hlt
      · have hgb : g < b := lt_of_not_le hbg
        have hmin : min r (min g b) = g := by
          rw [min_eq_left (le_of_lt hgb), min_eq_right hgr]
        have hmax : max r (max g b) = r := hr.symm
        rw [hmax, hmin]
        exact roundtrip_rmax_gmin r g b hg0 hgb hbrle
    · rw [if_neg hr]
      by_cases hg : g = max r (max g b)
      · rw [if_pos hg]
        have hrg : r < g := lt_of_lt_of_eq (lt_of_le_of_ne (le_max_left _ _) hr) hg.symm
        have hbgle : b ≤ g := le_of_le_of_eq hbmax hg.symm
        have hmax : max r (max g b) = g := hg.symm
        by_cases hrb : r ≤ b
        · have hmin : min r (min g b) = r := min_eq_left (le_min (le_of_lt hrg) hrb)
          rw [hmax, hmin]
          exact roundtrip_gmax_rmin r g b hr0 hrb hbgle hrg
        · have hbr : b < r := lt_of_not_le hrb
          have hmin : min r (min g b) = b := by
            rw [min_eq_right hbgle, min_eq_right (le_of_lt hbr)]
          rw [hmax, hmin]
          exact roundtrip_gmax_bmin r g b hb0 hbr hrg
      · rw [if_neg hg]
        have hmax : max r (max g b) = b := by
          rcases max_choice r (max g b) with h1 | h1
          · exact absurd h1.symm hr
          · rcases max_choice g b with h2 | h2
            · exact absurd (h1.trans h2).symm hg
            · exact h1.trans h2
        have hrb : r < b := by
          refine lt_of_le_of_ne (le_of_le_of_eq (le_max_left _ _) hmax) ?_
          intro he
          exact hr (he.trans hmax.symm)
        have hgb : g < b := by
          refine lt_of_le_of_ne (le_of_le_of_eq hgmax hmax) ?_
          intro he
          exact hg (he.trans hmax.symm)
        by_cases hrg : r < g
        · have hmin : min r (min g b) = r :=
            min_eq_left (le_min (le_of_lt hrg) (le_of_lt hrb))
          rw [hmax, hmin]
          exact roundtrip_bmax_rmin r g b hr0 hrg hgb
        · have hgr : g ≤ r := not_lt.mp hrg
          have hmin : min r (min g b) = g := by
            rw [min_eq_left (le_of_lt hgb), min_eq_right hgr]
          rw [hmax, hmin]
          exact roundtrip_bmax_gmin r g b hg0 hgr hrb

lemma rgb_to_hsv_s_bounds (r g b : ℚ) (hr0 : 0 ≤ r) (hg0 : 0 ≤ g) (hb0 : 0 ≤ b) :
    0 ≤ (rgb_to_hsv r g b).2.1 ∧ (rgb_to_hsv r g b).2.1 ≤ 1 := by
  by_cases hEq : min r (min g b) = max r (max g b)
  · simp only [rgb_to_hsv, if_pos hEq]
    norm_num
  · simp only [rgb_to_hsv, if_neg hEq]
    have hm0 : 0 ≤ min r (min g b) := le_min hr0 (le_min hg0 hb0)
    have hlt : min r (min g b) < max r (max g b) :=
      lt_of_le_of_ne (le_trans (min_le_left _ _) (le_max_left _ _)) hEq
    have hM0 : 0 < max r (max g b) := lt_of_le_of_lt hm0 hlt
    constructor
    · exact div_nonneg (by linarith) (le_of_lt hM0)
    · rw [div_le_one hM0]
      linarith

lemma rgb_to_hsv_v_bounds (r g b : ℚ) (hr0 : 0 ≤ r) (hr1 : r ≤ 1) (hg1 : g ≤ 1)
    (hb1 : b ≤ 1) :
    0 ≤ (rgb_to_hsv r g b).2.2 ∧ (rgb_to_hsv r g b).2.2 ≤ 1 := by
  have hv : (rgb_to_hsv r g b).2.2 = max r (max g b) := by
    simp only [rgb_to_hsv]
    split_ifs <;> rfl
  rw [hv]
  exact ⟨le_trans hr0 (le_max_left _ _), max_le hr1 (max_le hg1 hb1)⟩

lemma pyround_intCast (n : ℤ) : pyround (n : ℚ) = n := by
  unfold pyround
  rw [Int.floor_intCast]
  norm_num

/-- C10: for every color with 8-bit channels, ColorResaturate with rS = 1,
dS = 0, rV = 1, dV = 0 returns the same color (exact equality, which is in
particular equality up to rounding of each channel), with alpha preserved. -/
theorem colorResaturate_identity (color : SColor)
    (h1 : 0 ≤ color.r) (h2 : color.r ≤ 255) (h3 : 0 ≤ color.g) (h4 : color.g ≤ 255)
    (h5 : 0 ≤ color.b) (h6 : color.b ≤ 255) :
    ColorResaturate color 1 0 1 0 = color := by
  obtain ⟨cr, cg, cb, ca⟩ := color
  simp only at h1 h2 h3 h4 h5 h6
  have hr0 : (0 : ℚ) ≤ (cr : ℚ) / 255 := by positivity
  have hg0 : (0 : ℚ) ≤ (cg : ℚ) / 255 := by positivity
  have hb0 : (0 : ℚ) ≤ (cb : ℚ) / 255 := by positivity
  have hr1 : (cr : ℚ) / 255 ≤ 1 := by
    rw [div_le_one (by norm_num : (0 : ℚ) < 255)]
    exact_mod_cast h2
  have hg1 : (cg : ℚ) / 255 ≤ 1 := by
    rw [div_le_one (by norm_num : (0 : ℚ) < 255)]
    exact_mod_cast h4
  have hb1 : (cb : ℚ) / 255 ≤ 1 := by
    rw [div_le_one (by norm_num : (0 : ℚ) < 255)]
    exact_mod_cast h6
  have hsb := rgb_to_hsv_s_bounds ((cr : ℚ) / 255) ((cg : ℚ) / 255) ((cb : ℚ) / 255) hr0 hg0 hb0
  have hvb := rgb_to_hsv_v_bounds ((cr : ℚ) / 255) ((cg : ℚ) / 255) ((cb : ℚ) / 255) hr0 hr1 hg1 hb1
  have hcs : min 1 (max 0 ((rgb_to_hsv ((cr : ℚ) / 255) ((cg : ℚ) / 255) ((cb : ℚ) / 255)).2.1 * 1 + 0))
      = (rgb_to_hsv ((cr : ℚ) / 255) ((cg : ℚ) / 255) ((cb : ℚ) / 255)).2.1 := by
    rw [mul_one, add_zero, max_eq_right hsb.1, min_eq_right hsb.2]
  have hcv : min 1 (max 0 ((rgb_to_hsv ((cr : ℚ) / 255) ((cg : ℚ) / 255) ((cb : ℚ) / 255)).2.2 * 1 + 0))
      = (rgb_to_hsv ((cr : ℚ) / 255) ((cg : ℚ) / 255) ((cb : ℚ) / 255)).2.2 := by
    rw [mul_one, add_zero, max_eq_right hvb.1, min_eq_right hvb.2]
  have hrt := hsv_of_rgb_roundtrip ((cr : ℚ) / 255) ((cg : ℚ) / 255) ((cb : ℚ) / 255) hr0 hg0 hb0
  simp only [ColorResaturate]
  rw [hcs, hcv, hrt]
  have e1 : (cr : ℚ) / 255 * 255 = (cr : ℚ) := by field_simp
  have e2 : (cg : ℚ) / 255 * 255 = (cg : ℚ) := by field_simp
  have e3 : (cb : ℚ) / 255 * 255 = (cb : ℚ) := by field_simp
  simp only [SColor.mk.injEq]
  refine ⟨?_, ?_, ?_, trivial⟩
  · rw [e1, pyround_intCast]
  · rw [e2, pyround_intCast]
  · rw [e3, pyround_intCast]

/-- Witness for C10 at the concrete color (10, 20, 30, 255). -/
theorem colorResaturate_identity_witness :
    ((0 : ℤ) ≤ 10 ∧ (10 : ℤ) ≤ 255 ∧ (0 : ℤ) ≤ 20 ∧ (20 : ℤ) ≤ 255 ∧
      (0 : ℤ) ≤ 30 ∧ (30 : ℤ) ≤ 255) ∧
    ColorResaturate ⟨10, 20, 30, 255⟩ 1 0 1 0 = ⟨10, 20, 30, 255⟩ :=
  ⟨by decide,
    colorResaturate_identity ⟨10, 20, 30, 255⟩ (by decide) (by decide) (by decide)
      (by decide) (by decide) (by decide)⟩

/-- C3: for every rectangle and value v, setting the x property then reading x
returns v with dX unchanged (whole-rectangle translation), and setting the dX
property then reading dX returns v with x (posMin.x) unchanged (only posMax
moves); likewise for y and dY. -/
theorem rect_property_setters_translate_or_resize (rect : SRect) (v : ℚ) :
    ((rect.setX v).x = v ∧ (rect.setX v).dX = rect.dX) ∧
    ((rect.setDX v).dX = v ∧ (rect.setDX v).x = rect.x) ∧
    ((rect.setY v).y = v ∧ (rect.setY v).dY = rect.dY) ∧
    ((rect.setDY v).dY = v ∧ (rect.setDY v).y = rect.y) := by
  obtain ⟨⟨x0, y0⟩, ⟨x1, y1⟩⟩ := rect
  refine ⟨⟨?_, ?_⟩, ⟨?_, ?_⟩, ⟨?_, ?_⟩, ⟨?_, ?_⟩⟩ <;>
    simp [SRect.setX, SRect.setY, SRect.setDX, SRect.setDY, SRect.x, SRect.y,
      SRect.dX, SRect.dY, SRect.Shift, SPoint.Shift] <;> ring

/-- C6: for every rectangle and every d, Inset(d) followed by Outset(d)
restores the original posMin and posMax exactly, and so does Outset(d)
followed by Inset(d). -/
theorem inset_outset_inverse (rect : SRect) (dS : ℚ) :
    (rect.Inset dS).Outset dS = rect ∧ (rect.Outset dS).Inset dS = rect := by
  obtain ⟨⟨x0, y0⟩, ⟨x1, y1⟩⟩ := rect
  constructor <;>
    simp [SRect.Inset, SRect.Outset, SPoint.Shift, SRect.mk.injEq, SPoint.mk.injEq]

/-- C4: RectBoundingBox of a non-empty list has posMin equal to the
componentwise minimum of the inputs' posMin and posMax equal to the
componentwise maximum of their posMax (expressed as a min/max fold over the
list); on a one-element list it returns a copy of that rectangle, and on the
empty list it returns the default zero-sized rectangle at the origin. -/
theorem rectBoundingBox_componentwise :
    (∀ (rectFirst : SRect) (rest : List SRect),
      (RectBoundingBox (rectFirst :: rest)).posMin.x
          = (rest.map SRect.xMin).foldl min rectFirst.xMin ∧
      (RectBoundingBox (rectFirst :: rest)).posMin.y
          = (rest.map SRect.yMin).foldl min rectFirst.yMin ∧
      (RectBoundingBox (rectFirst :: rest)).posMax.x
          = (rest.map SRect.xMax).foldl max rectFirst.xMax ∧
      (RectBoundingBox (rectFirst :: rest)).posMax.y
          = (rest.map SRect.yMax).foldl max rectFirst.yMax) ∧
    (∀ rect : SRect, RectBoundingBox [rect] = rect.Copy) ∧
    RectBoundingBox [] = SRect.ofXYDxDy 0 0 0 0 := by
  refine ⟨fun rectFirst rest => ?_, fun rect => rfl, rfl⟩
  exact ⟨bbFold_posMin_x rest rectFirst.Copy, bbFold_posMin_y rest rectFirst.Copy,
    bbFold_posMax_x rest rectFirst.Copy, bbFold_posMax_y rest rectFirst.Copy⟩

lemma SRect.dX_Shift (rect : SRect) (dX dY : ℚ) : (rect.Shift dX dY).dX = rect.dX := by
  simp only [SRect.Shift, SRect.dX, SPoint.Shift]
  ring

lemma SRect.dX_setX (rect : SRect) (v : ℚ) : (rect.setX v).dX = rect.dX :=
  SRect.dX_Shift rect _ _

lemma SRect.dX_setY (rect : SRect) (v : ℚ) : (rect.setY v).dX = rect.dX :=
  SRect.dX_Shift rect _ _

lemma SRect.dX_ofXYDxDy (x y dX dY : ℚ) : (SRect.ofXYDxDy x y dX dY).dX = dX := by
  simp only [SRect.ofXYDxDy, SRect.dX]
  ring

/-- C2 counterexample: at raw cap-height 700 and requested size 1 (inch), the
constructor stores dYCap = 700 * 1 / 1000 = 0.7, while raw cap-height times
the point size (dPtFont = 72) over 1000 would be 50.4. -/
theorem fontInstance_capHeight_not_pointSize :
    (CFontInstance.init 700 1).dYCap ≠ 700 * (CFontInstance.init 700 1).dPtFont / 1000 := by
  norm_num [CFontInstance.init]

/-- C2 amended: the effective cap-height stored on the instance equals the
raw cap-height multiplied by the requested size in the document's linear unit
(inches) and divided by 1000 -- equivalently raw times point size divided by
72 and then by 1000 -- not raw times point size divided by 1000. -/
theorem fontInstance_capHeight_formula (dYCapRaw dYFont : ℚ) :
    (CFontInstance.init dYCapRaw dYFont).dYCap = dYCapRaw * dYFont / 1000 ∧
    (CFontInstance.init dYCapRaw dYFont).dYCap
      = dYCapRaw * (CFontInstance.init dYCapRaw dYFont).dPtFont / 72 / 1000 := by
  constructor
  · rfl
  · show dYCapRaw * dYFont / 1000 = dYCapRaw * (dYFont * 72) / 72 / 1000
    ring

/-- C5: a one-line text box constructed with an explicit margin argument of 0
uses the computed default max(0, (rect.dY - capHeight) / 2) -- the same value
as when the margin is omitted -- because Python's falsy `or` treats 0.0 like
None; an explicit nonzero margin m is used as given. -/
theorem oltb_zero_margin_falls_back (dYCapRaw : ℚ) (rect : SRect) (dYFont : ℚ) :
    (COneLineTextBox.init dYCapRaw rect dYFont (some 0)).dSMargin
        = max 0 ((rect.dY - (CFontInstance.init dYCapRaw dYFont).dYCap) / 2) ∧
    (COneLineTextBox.init dYCapRaw rect dYFont (some 0)).dSMargin
        = (COneLineTextBox.init dYCapRaw rect dYFont none).dSMargin ∧
    ∀ m : ℚ, m ≠ 0 → (COneLineTextBox.init dYCapRaw rect dYFont (some m)).dSMargin = m := by
  refine ⟨rfl, rfl, fun m hm => ?_⟩
  simp only [COneLineTextBox.init]
  rw [if_neg hm]

/-- Witness for C5 at raw cap-height 700, a 2 by 1 rectangle, size 1: an
explicit 0 margin yields the computed default, and the nonzero margin 1/4 is
used as given. -/
theorem oltb_zero_margin_falls_back_witness :
    (COneLineTextBox.init 700 (SRect.ofXYDxDy 0 0 2 1) 1 (some 0)).dSMargin
        = max 0 (((SRect.ofXYDxDy 0 0 2 1).dY - (CFontInstance.init 700 1).dYCap) / 2) ∧
    ((1 : ℚ) / 4 ≠ 0 ∧
      (COneLineTextBox.init 700 (SRect.ofXYDxDy 0 0 2 1) 1 (some (1 / 4))).dSMargin = 1 / 4) :=
  ⟨(oltb_zero_margin_falls_back 700 (SRect.ofXYDxDy 0 0 2 1) 1).1,
    by norm_num,
    (oltb_zero_margin_falls_back 700 (SRect.ofXYDxDy 0 0 2 1) 1).2.2 (1 / 4) (by norm_num)⟩

/-- C9: if no character of the text has bidirectional category AL or R, the
string passed to the drawing calls is the input unmodified; if some character
has category AL or R, the drawn string is the reshape-reorder-strip
transformation of the input. -/
theorem rtl_gate_transform (oltb : COneLineTextBox) (bidi : Char → String)
    (rtlXform : String → String) (wPerPt : String → ℚ) (strText : String)
    (jh : JH) (jv : JV) (fShrinkToFit : Bool) :
    ((∀ ch ∈ strText.data, bidi ch ≠ "AL" ∧ bidi ch ≠ "R") →
      (oltb.RectDrawText bidi rtlXform wPerPt strText jh jv fShrinkToFit).strDrawn
        = strText) ∧
    ((∃ ch ∈ strText.data, bidi ch = "AL" ∨ bidi ch = "R") →
      (oltb.RectDrawText bidi rtlXform wPerPt strText jh jv fShrinkToFit).strDrawn
        = rtlXform strText) := by
  constructor
  · intro h
    have hf : FHasAnyRtl bidi strText = false := by
      simp only [FHasAnyRtl, List.any_eq_false]
      intro ch hch
      have hc := h ch hch
      simp [hc.1, hc.2]
    simp only [COneLineTextBox.RectDrawText, hf]
    simp
  · intro h
    have hf : FHasAnyRtl bidi strText = true := by
      simp only [FHasAnyRtl, List.any_eq_true]
      obtain ⟨ch, hch, hc⟩ := h
      refine ⟨ch, hch, ?_⟩
      rcases hc with hc | hc <;> simp [hc]
    simp only [COneLineTextBox.RectDrawText, hf]
    simp

/-- Witness for C9: with a classification sending only the character z to R,
the string "ab" is drawn unmodified and the string "az" is drawn through the
transformation (here, list reversal). -/
theorem rtl_gate_transform_witness :
    (∀ ch ∈ "ab".data,
      (fun c => if c = 'z' then "R" else "L") ch ≠ "AL" ∧
      (fun c => if c = 'z' then "R" else "L") ch ≠ "R") ∧
    ((COneLineTextBox.init 700 (SRect.ofXYDxDy 0 0 2 1) 1 none).RectDrawText
        (fun c => if c = 'z' then "R" else "L") (fun s => String.mk s.data.reverse)
        (fun _ => 1) "ab" JH.Left JV.Middle false).strDrawn = "ab" ∧
    (∃ ch ∈ "az".data,
      (fun c => if c = 'z' then "R" else "L") ch = "AL" ∨
      (fun c => if c = 'z' then "R" else "L") ch = "R") ∧
    ((COneLineTextBox.init 700 (SRect.ofXYDxDy 0 0 2 1) 1 none).RectDrawText
        (fun c => if c = 'z' then "R" else "L") (fun s => String.mk s.data.reverse)
        (fun _ => 1) "az" JH.Left JV.Middle false).strDrawn
      = (fun s => String.mk s.data.reverse) "az" :=
  ⟨by decide,
    (rtl_gate_transform (COneLineTextBox.init 700 (SRect.ofXYDxDy 0 0 2 1) 1 none)
      (fun c => if c = 'z' then "R" else "L") (fun s => String.mk s.data.reverse)
      (fun _ => 1) "ab" JH.Left JV.Middle false).1 (by decide),
    by decide,
    (rtl_gate_transform (COneLineTextBox.init 700 (SRect.ofXYDxDy 0 0 2 1) 1 none)
      (fun c => if c = 'z' then "R" else "L") (fun s => String.mk s.data.reverse)
      (fun _ => 1) "az" JH.Left JV.Middle false).2 (by decide)⟩

/-- C7: in TuDxDyFromOrientationFmt, a None format returns no size (the early
None return) for any orientation string, recognized or not; and for a format
that get_page_format resolves, an orientation string whose lowercasing is
none of the recognized spellings p/portrait/l/landscape hits the assert and
fails (no fallback result). -/
theorem orientation_precondition (k : ℚ) (strOrientation : String) :
    TuDxDyFromOrientationFmt k strOrientation none = TuResult.noneFmt ∧
    (∀ (f : PageFmt) (dXPt dYPt : ℚ), get_page_format f k = some (dXPt, dYPt) →
      pylower strOrientation ∉ (["p", "portrait", "l", "landscape"] : List String) →
      TuDxDyFromOrientationFmt k strOrientation (some f) = TuResult.assertError) := by
  refine ⟨rfl, fun f dXPt dYPt hf hno => ?_⟩
  simp only [TuDxDyFromOrientationFmt, hf]
  have h1 : ¬(pylower strOrientation = "p" ∨ pylower strOrientation = "portrait") := by
    rintro (h | h) <;> simp [h] at hno
  have h2 : ¬(pylower strOrientation = "l" ∨ pylower strOrientation = "landscape") := by
    rintro (h | h) <;> simp [h] at hno
  rw [if_neg h1, if_neg h2]

/-- Witness for C7: the orientation "x" is unrecognized and asserts when the
format resolves; with a None format every orientation returns no size. -/
theorem orientation_precondition_witness :
    get_page_format (PageFmt.wh 1 1) 72 = some (1 * 72, 1 * 72) ∧
    pylower "x" ∉ (["p", "portrait", "l", "landscape"] : List String) ∧
    TuDxDyFromOrientationFmt 72 "x" (some (PageFmt.wh 1 1)) = TuResult.assertError ∧
    TuDxDyFromOrientationFmt 72 "x" none = TuResult.noneFmt :=
  ⟨rfl, by decide,
    (orientation_precondition 72 "x").2 (PageFmt.wh 1 1) (1 * 72) (1 * 72) rfl (by decide),
    (orientation_precondition 72 "x").1⟩

/-- C8: for any format resolving to point size (dXPt, dYPt) at unit scale k,
portrait resolution returns (dXPt/k, dYPt/k) and landscape resolution the
swap (dYPt/k, dXPt/k); for format a4 at k = 72 the portrait result is within
1/10000 of (8.2678, 11.6929) inches and the landscape result is its swap. -/
theorem portrait_landscape_resolution :
    (∀ (k dXPt dYPt : ℚ) (f : PageFmt), get_page_format f k = some (dXPt, dYPt) →
      TuDxDyFromOrientationFmt k "portrait" (some f) = TuResult.ok (dXPt / k) (dYPt / k) ∧
      TuDxDyFromOrientationFmt k "landscape" (some f) = TuResult.ok (dYPt / k) (dXPt / k)) ∧
    (TuDxDyFromOrientationFmt 72 "portrait" (some (PageFmt.str "a4"))
        = TuResult.ok (595.28 / 72) (841.89 / 72) ∧
      |(595.28 : ℚ) / 72 - 8.2678| < 1 / 10000 ∧
      |(841.89 : ℚ) / 72 - 11.6929| < 1 / 10000) ∧
    TuDxDyFromOrientationFmt 72 "landscape" (some (PageFmt.str "a4"))
        = TuResult.ok (841.89 / 72) (595.28 / 72) := by
  refine ⟨fun k dXPt dYPt f hf => ⟨?_, ?_⟩, ⟨rfl, ?_, ?_⟩, rfl⟩
  · simp only [TuDxDyFromOrientationFmt, hf]
    rw [if_pos (by decide : pylower "portrait" = "p" ∨ pylower "portrait" = "portrait")]
  · simp only [TuDxDyFromOrientationFmt, hf]
    rw [if_neg (by decide : ¬(pylower "landscape" = "p" ∨ pylower "landscape" = "portrait")),
      if_pos (by decide : pylower "landscape" = "l" ∨ pylower "landscape" = "landscape")]
  · rw [abs_sub_lt_iff]
    norm_num
  · rw [abs_sub_lt_iff]
    norm_num

/-- Witness for C8 discharging the resolution hypothesis at the concrete
format a4 and k = 72. -/
theorem portrait_landscape_resolution_witness :
    get_page_format (PageFmt.str "a4") 72 = some (595.28, 841.89) ∧
    TuDxDyFromOrientationFmt 72 "portrait" (some (PageFmt.str "a4"))
        = TuResult.ok (595.28 / 72) (841.89 / 72) ∧
    TuDxDyFromOrientationFmt 72 "landscape" (some (PageFmt.str "a4"))
        = TuResult.ok (841.89 / 72) (595.28 / 72) :=
  ⟨rfl,
    (portrait_landscape_resolution.1 72 595.28 841.89 (PageFmt.str "a4") rfl).1,
    (portrait_landscape_resolution.1 72 595.28 841.89 (PageFmt.str "a4") rfl).2⟩

/-- C1: for a one-line text box built by the constructor, when shrink-to-fit
is requested and the measured width of the (possibly reshaped) text at the
box's current font size is positive and exceeds the usable margin-inset
width, the font is rebuilt exactly once at ratio usable width / measured
width (the resulting instance's size is that ratio times the original size)
and after the single re-measure the returned occupied rectangle's width is
at most the usable width, for every justification choice. -/
theorem rectDrawText_shrink_single_pass (dYCapRaw : ℚ) (rect : SRect) (dYFont : ℚ)
    (dSMargin : Option ℚ) (bidi : Char → String) (rtlXform : String → String)
    (wPerPt : String → ℚ) (strText : String) (jh : JH) (jv : JV)
    (hover : (COneLineTextBox.init dYCapRaw rect dYFont dSMargin).rectMargin.dX
        < wPerPt (if FHasAnyRtl bidi strText then rtlXform strText else strText)
            * (COneLineTextBox.init dYCapRaw rect dYFont dSMargin).fonti.dPtFont)
    (hpos : 0 < wPerPt (if FHasAnyRtl bidi strText then rtlXform strText else strText)
            * (COneLineTextBox.init dYCapRaw rect dYFont dSMargin).fonti.dPtFont) :
    ((COneLineTextBox.init dYCapRaw rect dYFont dSMargin).RectDrawText bidi rtlXform wPerPt
        strText jh jv true).fonti.dYFont
      = ((COneLineTextBox.init dYCapRaw rect dYFont dSMargin).rectMargin.dX
          / (wPerPt (if FHasAnyRtl bidi strText then rtlXform strText else strText)
              * (COneLineTextBox.init dYCapRaw rect dYFont dSMargin).fonti.dPtFont))
          * dYFont ∧
    ((COneLineTextBox.init dYCapRaw rect dYFont dSMargin).RectDrawText bidi rtlXform wPerPt
        strText jh jv true).rectReturn.dX
      ≤ (COneLineTextBox.init dYCapRaw rect dYFont dSMargin).rectMargin.dX := by
  have hcond : True ∧
      (COneLineTextBox.init dYCapRaw rect dYFont dSMargin).rectMargin.dX
        < wPerPt (if FHasAnyRtl bidi strText then rtlXform strText else strText)
            * (COneLineTextBox.init dYCapRaw rect dYFont dSMargin).fonti.dPtFont :=
    ⟨trivial, hover⟩
  have hfy : (COneLineTextBox.init dYCapRaw rect dYFont dSMargin).fonti.dYFont = dYFont := rfl
  have hpt : (COneLineTextBox.init dYCapRaw rect dYFont dSMargin).fonti.dPtFont
      = dYFont * 72 := rfl
  constructor
  · simp only [COneLineTextBox.RectDrawText, if_pos hcond, CFontInstance.init, hfy]
  · rw [hpt] at hpos hover
    have hcond2 : True ∧
        (COneLineTextBox.init dYCapRaw rect dYFont dSMargin).rectMargin.dX
          < wPerPt (if FHasAnyRtl bidi strText then rtlXform strText else strText)
              * (dYFont * 72) :=
      ⟨trivial, hover⟩
    have hne : wPerPt (if FHasAnyRtl bidi strText then rtlXform strText else strText)
        * (dYFont * 72) ≠ 0 := ne_of_gt hpos
    have key : wPerPt (if FHasAnyRtl bidi strText then rtlXform strText else strText)
        * ((COneLineTextBox.init dYCapRaw rect dYFont dSMargin).rectMargin.dX
            / (wPerPt (if FHasAnyRtl bidi strText then rtlXform strText else strText)
                * (dYFont * 72)) * dYFont * 72)
        = (COneLineTextBox.init dYCapRaw rect dYFont dSMargin).rectMargin.dX := by
      rw [show wPerPt (if FHasAnyRtl bidi strText then rtlXform strText else strText)
          * ((COneLineTextBox.init dYCapRaw rect dYFont dSMargin).rectMargin.dX
              / (wPerPt (if FHasAnyRtl bidi strText then rtlXform strText else strText)
                  * (dYFont * 72)) * dYFont * 72)
          = (COneLineTextBox.init dYCapRaw rect dYFont dSMargin).rectMargin.dX
              / (wPerPt (if FHasAnyRtl bidi strText then rtlXform strText else strText)
                  * (dYFont * 72))
              * (wPerPt (if FHasAnyRtl bidi strText then rtlXform strText else strText)
                  * (dYFont * 72)) from by ring,
        div_mul_cancel₀ _ hne]
    simp only [COneLineTextBox.RectDrawText, CFontInstance.init, hpt, hfy, if_pos hcond2]
    cases jh <;> cases jv <;>
      simp only [SRect.Copy, SRect.dX_Shift, SRect.dX_setX, SRect.dX_setY,
        SRect.dX_ofXYDxDy] <;>
      rw [key]

/-- Witness for C1: a 2 by 1 box with margin 1/4 (usable width 3/2) and a
text measuring 2 at the original size triggers the shrink and returns a
rectangle of width at most 3/2. -/
theorem rectDrawText_shrink_single_pass_witness :
    (COneLineTextBox.init 700 (SRect.ofXYDxDy 0 0 2 1) 1 (some (1 / 4))).rectMargin.dX
        < (fun _ => (1 : ℚ) / 36)
            (if FHasAnyRtl (fun _ => "L") "hi" then id "hi" else "hi")
            * (COneLineTextBox.init 700 (SRect.ofXYDxDy 0 0 2 1) 1 (some (1 / 4))).fonti.dPtFont ∧
    ((COneLineTextBox.init 700 (SRect.ofXYDxDy 0 0 2 1) 1 (some (1 / 4))).RectDrawText
        (fun _ => "L") id (fun _ => (1 : ℚ) / 36) "hi" JH.Left JV.Middle true).rectReturn.dX
      ≤ (COneLineTextBox.init 700 (SRect.ofXYDxDy 0 0 2 1) 1 (some (1 / 4))).rectMargin.dX :=
  ⟨by norm_num [COneLineTextBox.init, CFontInstance.init, SRect.ofXYDxDy, SRect.dX,
      SRect.Copy, SRect.Inset, SPoint.Shift],
    (rectDrawText_shrink_single_pass 700 (SRect.ofXYDxDy 0 0 2 1) 1 (some (1 / 4))
      (fun _ => "L") id (fun _ => (1 : ℚ) / 36) "hi" JH.Left JV.Middle
      (by norm_num [COneLineTextBox.init, CFontInstance.init, SRect.ofXYDxDy, SRect.dX,
        SRect.Copy, SRect.Inset, SPoint.Shift])
      (by norm_num [COneLineTextBox.init, CFontInstance.init])).2⟩

end Bolay
